import Mathlib

/-!
Shallow embedding of the ledger state machine of `src/bot.js`
(group finance bot): wallet, transaction log, daily/monthly spend
aggregates, and the intent handlers `handleIncomeAction`,
`handleExpenseAction`, the convert branch of `executeAction`,
`handleCancelAction` and `approveTransaction`.

Modelling conventions:
* JS numbers are modelled as `Rat` (exact rationals), so every
  "within epsilon" statement is settled exactly.
* JS objects used as string-keyed maps (`memory.wallet`,
  `monthlySpent.categories`, `totalAmount`) are association lists with
  lookup default `0`; assigning to a missing key appends it, mirroring
  JS property creation order.
* Timestamps are abstracted: each operation carries a monotone `time`
  marker plus the group-local `day` and `month` markers that the source
  derives from the ISO timestamp via moment formatting.
* The external authorization oracle (`isUserAdmin`) is a boolean
  parameter, and chat/persistence I/O (`saveAllData`, messages) is
  dropped: it never influences the ledger state.
-/

namespace FinanceBot

/-- Association-list update: overwrite the first binding of the key, or
append a fresh binding (JS property assignment). -/
def aset {α β : Type} [DecidableEq α] : List (α × β) → α → β → List (α × β)
  | [], k, v => [(k, v)]
  | (k', v') :: rest, k, v =>
    if k' = k then (k', v) :: rest else (k', v') :: aset rest k v

/-- Association-list lookup with a default (JS `obj[k] || d` on maps whose
values are numbers, with `d = 0`). -/
def agetD {α β : Type} [DecidableEq α] : List (α × β) → α → β → β
  | [], _, d => d
  | (k', v') :: rest, k, d => if k' = k then v' else agetD rest k d

/-- Association-list key membership. -/
def amem {α β : Type} [DecidableEq α] : List (α × β) → α → Bool
  | [], _ => false
  | (k', _) :: rest, k => if k' = k then true else amem rest k

/-- A wallet: currency code → balance, as stored in `memory.wallet`. -/
abbrev Wallet := List (String × Rat)

/-- Read `memory.wallet[c]` with default 0. -/
def wget (w : Wallet) (c : String) : Rat := agetD w c 0

/-- Write `memory.wallet[c] = v`. -/
def wset (w : Wallet) (c : String) (v : Rat) : Wallet := aset w c v

/-- Model of `if (memory.wallet[c] === undefined) memory.wallet[c] = 0;`. -/
def wensure (w : Wallet) (c : String) : Wallet :=
  if amem w c = true then w else w ++ [(c, 0)]

/-- JS `x || d` for numbers: `0` (and missing, handled by `Option`) falls
back to the default. -/
def jsOr (x : Rat) (d : Rat) : Rat := if x = 0 then d else x

/-- JS `x || d` where `x` is an optional numeric field of the intent. -/
def jsOrOpt (x : Option Rat) (d : Rat) : Rat :=
  match x with
  | Option.none => d
  | Option.some v => if v = 0 then d else v

/-- Transaction kinds appended by the executor. -/
inductive TxnType : Type
  | income
  | expense
  | convert
  deriving DecidableEq

/-- One entry of `memory.transactions`. -/
structure Txn : Type where
  id : Nat
  time : Nat
  day : Nat
  month : Nat
  user : String
  userId : Nat
  type : TxnType
  amount : Rat
  currency : String
  targetCurrency : String
  targetAmount : Rat
  rate : Rat
  description : String
  category : String
  countsToDailyLimit : Bool
  canceled : Bool
  canceledAt : Option Nat
  canceledBy : Option Nat
  approvedBy : Option String
  requiresAdminApproval : Bool
  deriving DecidableEq

/-- State of `memory.dailySpent`. -/
structure DailySpent : Type where
  usd : Rat
  limit : Rat
  lastReset : Nat
  deriving DecidableEq

/-- State of `memory.monthlySpent`. -/
structure MonthlySpent : Type where
  usd : Rat
  limit : Rat
  month : Nat
  categories : List (String × Rat)
  deriving DecidableEq

/-- State of `memory.statistics`. -/
structure Stats : Type where
  totalTransactions : Nat
  activeUsers : Nat
  lastActivity : Nat
  deriving DecidableEq

/-- One entry of `groupData.users`. -/
structure UserStat : Type where
  name : String
  transactions : Nat
  totalAmount : List (String × Rat)
  lastActive : Nat
  deriving DecidableEq

/-- State of `groupData.config`, restricted to the fields the ledger reads. -/
structure Config : Type where
  dailyLimit : Rat
  monthlyLimit : Rat
  bigTransactionThreshold : Rat
  requireAdminForBigTransactions : Bool
  deriving DecidableEq

/-- State of `groupData.memory`. -/
structure Memory : Type where
  wallet : Wallet
  dailySpent : DailySpent
  monthlySpent : MonthlySpent
  exchangeRate : Rat
  transactions : List Txn
  statistics : Stats
  deriving DecidableEq

/-- A group's full ledger state (`groupData`). -/
structure GroupData : Type where
  config : Config
  memory : Memory
  users : List (Nat × UserStat)
  deriving DecidableEq

/-- The structured intent delivered by the classifier (`aiData`),
restricted to the fields the ledger handlers read. `amount = none`
models a missing or non-numeric amount (`parseFloat` gives `NaN`). -/
structure AiData : Type where
  amount : Option Rat
  currency : Option String
  targetCurrency : Option String
  targetAmount : Option Rat
  rate : Option Rat
  category : Option String
  description : Option String
  countsToDailyLimit : Bool
  deriving DecidableEq

/-- The acting user (`user.id`, `user.name`). -/
structure UserRef : Type where
  id : Nat
  name : String
  deriving DecidableEq

/-- Warning level attached to a successful expense
(`warning_level` in the result). -/
inductive WLevel : Type
  | none
  | warning
  | danger
  | extreme
  deriving DecidableEq

/-- Outcome of a handler, abstracting the `{success, message, ...}`
result object. `pendingApproval` is the `success:false, requiresAdmin:true`
result of the big-transaction hold. -/
inductive ActionResult : Type
  | success (warningLevel : WLevel)
  | invalidAmount
  | insufficientFunds
  | pendingApproval
  | noTransactionToReverse
  deriving DecidableEq

/-- The warning-tier chain of `handleExpenseAction`
(lines 766-782 of `src/bot.js`): the `if/else if` ladder on the daily
percentage, starting from `'none'`. -/
def warnTier (p : Rat) : WLevel :=
  if 80 ≤ p ∧ p < 100 then WLevel.warning
  else if 100 ≤ p ∧ p < 150 then WLevel.danger
  else if 150 ≤ p then WLevel.extreme
  else WLevel.none

/-- The `groupData.users` update shared by income and expense: create the
user record if missing, then bump the transaction count, add `delta` to
`totalAmount[currency]` and refresh `lastActive`. -/
def updateUserStats (users : List (Nat × UserStat)) (uid : Nat) (name : String)
    (currency : String) (delta : Rat) (time : Nat) : List (Nat × UserStat) :=
  let s := agetD users uid
    { name := name, transactions := 0,
      totalAmount := [("IDR", 0), ("USD", 0)], lastActive := time }
  aset users uid
    { s with transactions := s.transactions + 1,
             totalAmount :=
               aset s.totalAmount currency (agetD s.totalAmount currency 0 + delta),
             lastActive := time }

/-- Model of `handleIncomeAction` of `src/bot.js` (lines 618-709): validate the
amount, apply the big-transaction hold, otherwise credit the wallet,
append the income transaction and update statistics and user stats. -/
def handleIncomeAction (d : AiData) (g : GroupData) (u : UserRef)
    (isAdmin : Bool) (txnId time day month : Nat) : ActionResult × GroupData :=
  match d.amount with
  | Option.none => (ActionResult.invalidAmount, g)
  | Option.some amount =>
    if amount ≤ 0 then (ActionResult.invalidAmount, g) else
    let currency := d.currency.getD "IDR"
    let cfg := g.config
    let mem := g.memory
    let isBig : Bool := decide (amount > cfg.bigTransactionThreshold)
    let requiresAdminApproval : Bool := cfg.requireAdminForBigTransactions && isBig
    if requiresAdminApproval && !isAdmin then
      (ActionResult.pendingApproval, g)
    else
      let w := wensure mem.wallet currency
      let w2 := wset w currency (wget w currency + amount)
      let txn : Txn :=
        { id := txnId, time := time, day := day, month := month,
          user := u.name, userId := u.id, type := TxnType.income,
          amount := amount, currency := currency,
          targetCurrency := "", targetAmount := 0, rate := 0,
          description := d.description.getD "Pemasukan",
          category := d.category.getD "income",
          countsToDailyLimit := false,
          canceled := false, canceledAt := Option.none, canceledBy := Option.none,
          approvedBy := if isAdmin then Option.some u.name else Option.none,
          requiresAdminApproval := requiresAdminApproval && !isAdmin }
      let stats :=
        { mem.statistics with
            totalTransactions := mem.statistics.totalTransactions + 1,
            lastActivity := time }
      (ActionResult.success WLevel.none,
        { g with
            memory :=
              { mem with wallet := w2,
                         transactions := mem.transactions ++ [txn],
                         statistics := stats },
            users := updateUserStats g.users u.id u.name currency amount time })

/-- Model of `handleExpenseAction` of `src/bot.js` (lines 711-905): validate the
amount, check the balance, update the daily aggregate and warning tier
for daily-counting USD expenses, update the monthly aggregate and
category totals for USD expenses, then apply the big-transaction hold,
and finally debit the wallet, append the expense transaction and update
statistics and user stats. -/
def handleExpenseAction (d : AiData) (g : GroupData) (u : UserRef)
    (isAdmin : Bool) (txnId time day month : Nat) : ActionResult × GroupData :=
  match d.amount with
  | Option.none => (ActionResult.invalidAmount, g)
  | Option.some amount =>
    if amount ≤ 0 then (ActionResult.invalidAmount, g) else
    let currency := d.currency.getD "IDR"
    let countsToDailyLimit := d.countsToDailyLimit
    let category := d.category.getD "other"
    let cfg := g.config
    let mem := g.memory
    let w := wensure mem.wallet currency
    if amount > wget w currency then
      (ActionResult.insufficientFunds, { g with memory := { mem with wallet := w } })
    else
      let warningLevel :=
        if currency = "USD" ∧ countsToDailyLimit = true then
          warnTier ((mem.dailySpent.usd + amount) / jsOr cfg.dailyLimit 20 * 100)
        else WLevel.none
      let newDailySpent :=
        if currency = "USD" ∧ countsToDailyLimit = true then
          { mem.dailySpent with usd := mem.dailySpent.usd + amount }
        else mem.dailySpent
      let newMonthlySpent :=
        if currency = "USD" then
          { mem.monthlySpent with
              usd := mem.monthlySpent.usd + amount,
              categories :=
                aset mem.monthlySpent.categories category
                  (agetD mem.monthlySpent.categories category 0 + amount) }
        else mem.monthlySpent
      let isBig : Bool := decide (amount > cfg.bigTransactionThreshold)
      let requiresAdminApproval : Bool := cfg.requireAdminForBigTransactions && isBig
      if requiresAdminApproval && !isAdmin then
        (ActionResult.pendingApproval,
          { g with memory :=
              { mem with wallet := w,
                         dailySpent := newDailySpent,
                         monthlySpent := newMonthlySpent } })
      else
        let w2 := wset w currency (wget w currency - amount)
        let txn : Txn :=
          { id := txnId, time := time, day := day, month := month,
            user := u.name, userId := u.id, type := TxnType.expense,
            amount := amount, currency := currency,
            targetCurrency := "", targetAmount := 0, rate := 0,
            description := d.description.getD "Pengeluaran",
            category := category,
            countsToDailyLimit := countsToDailyLimit,
            canceled := false, canceledAt := Option.none, canceledBy := Option.none,
            approvedBy := if isAdmin then Option.some u.name else Option.none,
            requiresAdminApproval := requiresAdminApproval && !isAdmin }
        let stats :=
          { mem.statistics with
              totalTransactions := mem.statistics.totalTransactions + 1,
              lastActivity := time }
        (ActionResult.success warningLevel,
          { g with
              memory :=
                { mem with wallet := w2,
                           dailySpent := newDailySpent,
                           monthlySpent := newMonthlySpent,
                           transactions := mem.transactions ++ [txn],
                           statistics := stats },
              users := updateUserStats g.users u.id u.name currency (-amount) time })

/-- The `convert` branch of `executeAction` in `src/bot.js`
(lines 986-1055): validate the amount, check the source balance, debit
the source, credit the target with `targetAmount || amount * rate`,
update the exchange rate when a positive rate was supplied, append the
convert transaction and bump statistics (user stats are not touched by
this branch). -/
def handleConvertAction (d : AiData) (g : GroupData) (u : UserRef)
    (txnId time day month : Nat) : ActionResult × GroupData :=
  let mem := g.memory
  let currency := d.currency.getD "USD"
  let targetCurrency := d.targetCurrency.getD "IDR"
  let rate := jsOrOpt d.rate (jsOr mem.exchangeRate 15000)
  match d.amount with
  | Option.none => (ActionResult.invalidAmount, g)
  | Option.some amount =>
    if amount ≤ 0 then (ActionResult.invalidAmount, g) else
    let targetAmount := jsOrOpt d.targetAmount (amount * rate)
    let w := wensure mem.wallet currency
    if amount > wget w currency then
      (ActionResult.insufficientFunds, { g with memory := { mem with wallet := w } })
    else
      let w2 := wset w currency (wget w currency - amount)
      let w3 := wensure w2 targetCurrency
      let w4 := wset w3 targetCurrency (wget w3 targetCurrency + targetAmount)
      let newRate :=
        match d.rate with
        | Option.none => mem.exchangeRate
        | Option.some r => if r ≠ 0 ∧ r > 0 then r else mem.exchangeRate
      let txn : Txn :=
        { id := txnId, time := time, day := day, month := month,
          user := u.name, userId := u.id, type := TxnType.convert,
          amount := amount, currency := currency,
          targetCurrency := targetCurrency, targetAmount := targetAmount,
          rate := rate,
          description := d.description.getD "Konversi",
          category := "convert",
          countsToDailyLimit := false,
          canceled := false, canceledAt := Option.none, canceledBy := Option.none,
          approvedBy := Option.none,
          requiresAdminApproval := false }
      let stats :=
        { mem.statistics with
            totalTransactions := mem.statistics.totalTransactions + 1,
            lastActivity := time }
      (ActionResult.success WLevel.none,
        { g with memory :=
            { mem with wallet := w4,
                       exchangeRate := newRate,
                       transactions := mem.transactions ++ [txn],
                       statistics := stats } })

/-- The transaction `handleCancelAction` targets: the source filters the
user's non-canceled transactions, stable-sorts them by time descending
and takes the head — i.e. the earliest-indexed transaction of maximal
time among the user's non-canceled ones. Returns its index and value,
scanning from index `k`. -/
def pickLast : List Txn → Nat → Nat → Option (Nat × Txn)
  | [], _, _ => Option.none
  | t :: rest, uid, k =>
    let restPick := pickLast rest uid (k + 1)
    if t.userId = uid ∧ t.canceled = false then
      match restPick with
      | Option.none => Option.some (k, t)
      | Option.some (j, t') =>
        if t'.time > t.time then Option.some (j, t') else Option.some (k, t)
    else restPick

/-- Model of `handleCancelAction` of `src/bot.js` (lines 539-595): find the
user's most recent non-canceled transaction, reverse its wallet effect
(and, for a same-day daily-counting USD expense, its `dailySpent`
effect, clamped at 0), and flag it canceled. -/
def handleCancelAction (g : GroupData) (uid : Nat) (today : Nat) (time : Nat) :
    ActionResult × GroupData :=
  let mem := g.memory
  match pickLast mem.transactions uid 0 with
  | Option.none => (ActionResult.noTransactionToReverse, g)
  | Option.some (i, lastTxn) =>
    let w := mem.wallet
    let walletAndDaily :=
      match lastTxn.type with
      | TxnType.income =>
        (wset w lastTxn.currency (wget w lastTxn.currency - lastTxn.amount),
         mem.dailySpent)
      | TxnType.expense =>
        let w1 := wset w lastTxn.currency (wget w lastTxn.currency + lastTxn.amount)
        let d1 :=
          if lastTxn.currency = "USD" ∧ lastTxn.countsToDailyLimit = true ∧
              lastTxn.day = today then
            { mem.dailySpent with usd := max 0 (mem.dailySpent.usd - lastTxn.amount) }
          else mem.dailySpent
        (w1, d1)
      | TxnType.convert =>
        let w1 := wset w lastTxn.currency (wget w lastTxn.currency + lastTxn.amount)
        let w2 := wset w1 lastTxn.targetCurrency
          (wget w1 lastTxn.targetCurrency - lastTxn.targetAmount)
        (w2, mem.dailySpent)
    let txns :=
      mem.transactions.set i
        { lastTxn with canceled := true,
                       canceledAt := Option.some time,
                       canceledBy := Option.some uid }
    (ActionResult.success WLevel.none,
      { g with memory :=
          { mem with wallet := walletAndDaily.1,
                     dailySpent := walletAndDaily.2,
                     transactions := txns } })

/-- Outcome of `/approve`. -/
inductive ApproveResult : Type
  | noPending
  | listShown
  | notFound
  | approved
  deriving DecidableEq

/-- Replace the first transaction with the given id (the source finds
the object by id and mutates it in place). -/
def approveById : List Txn → Nat → String → List Txn
  | [], _, _ => []
  | t :: rest, tid, nm =>
    if t.id = tid then
      { t with approvedBy := Option.some nm, requiresAdminApproval := false } :: rest
    else t :: approveById rest tid nm

/-- Model of `approveTransaction` of `src/bot.js` (lines 1710-1751): collect the
transactions flagged `requiresAdminApproval` that are unapproved and not
canceled; with none, report so; without an id argument, list them; with
an id, mark the transaction approved and, for a non-canceled income,
credit the wallet at approval time. -/
def approveTransaction (g : GroupData) (txnIdArg : Option Nat) (adminId : Nat) :
    ApproveResult × GroupData :=
  let pend := g.memory.transactions.filter
    (fun t => t.requiresAdminApproval && t.approvedBy.isNone && !t.canceled)
  if pend.isEmpty then (ApproveResult.noPending, g)
  else
    match txnIdArg with
    | Option.none => (ApproveResult.listShown, g)
    | Option.some tid =>
      match g.memory.transactions.find? (fun t => t.id = tid) with
      | Option.none => (ApproveResult.notFound, g)
      | Option.some txn =>
        let userName := (agetD g.users adminId
          { name := "Admin", transactions := 0, totalAmount := [], lastActive := 0 }).name
        let mem := g.memory
        let txns := approveById mem.transactions tid userName
        let w :=
          if txn.type = TxnType.income ∧ txn.canceled = false then
            let we := wensure mem.wallet txn.currency
            wset we txn.currency (wget we txn.currency + txn.amount)
          else mem.wallet
        (ApproveResult.approved,
          { g with memory := { mem with transactions := txns, wallet := w } })

/-- A freshly created group ledger (`createNewGroupData`): both
currencies at 0, default limits, empty log and stats. -/
def freshGroup : GroupData :=
  { config :=
      { dailyLimit := 20, monthlyLimit := 1000,
        bigTransactionThreshold := 1000000,
        requireAdminForBigTransactions := true },
    memory :=
      { wallet := [("IDR", 0), ("USD", 0)],
        dailySpent := { usd := 0, limit := 20, lastReset := 0 },
        monthlySpent := { usd := 0, limit := 1000, month := 0, categories := [] },
        exchangeRate := 15000,
        transactions := [],
        statistics := { totalTransactions := 0, activeUsers := 0, lastActivity := 0 } },
    users := [] }

/-! ## Concrete states and intents used by counterexamples and witnesses -/

/-- The acting user in concrete scenarios. -/
def uBob : UserRef := { id := 7, name := "Bob" }

/-- A baseline intent with every optional field absent. -/
def blankIntent : AiData :=
  { amount := Option.none, currency := Option.none,
    targetCurrency := Option.none, targetAmount := Option.none,
    rate := Option.none, category := Option.none,
    description := Option.none, countsToDailyLimit := false }

/-- An income intent of 100 in the unsupported currency `EUR`. -/
def intentIncomeEUR : AiData :=
  { blankIntent with amount := Option.some 100, currency := Option.some "EUR" }

/-- A big income intent: `IDR 2,000,000`, above the default
big-transaction threshold of `1,000,000`. -/
def intentBigIncome : AiData :=
  { blankIntent with amount := Option.some 2000000, currency := Option.some "IDR" }

/-- A big expense intent: `USD 1,500,000`, above the threshold, counting
toward the daily limit. -/
def intentBigExpenseUSD : AiData :=
  { blankIntent with amount := Option.some 1500000,
                     currency := Option.some "USD", countsToDailyLimit := true }

/-- A big expense intent in `IDR 2,000,000`. -/
def intentBigExpenseIDR : AiData :=
  { blankIntent with amount := Option.some 2000000, currency := Option.some "IDR" }

/-- A small daily-counting expense intent: `USD 10`. -/
def intentExpenseUSD10 : AiData :=
  { blankIntent with amount := Option.some 10,
                     currency := Option.some "USD", countsToDailyLimit := true }

/-- A `USD 200` expense that does not count toward the daily limit. -/
def intentExpenseUSD200 : AiData :=
  { blankIntent with amount := Option.some 200,
                     currency := Option.some "USD", countsToDailyLimit := false }

/-- A fresh group holding `USD 2,000,000`. -/
def groupRichUSD : GroupData :=
  { freshGroup with memory :=
      { freshGroup.memory with wallet := [("IDR", 0), ("USD", 2000000)] } }

/-- A fresh group holding `IDR 3,000,000`. -/
def groupRichIDR : GroupData :=
  { freshGroup with memory :=
      { freshGroup.memory with wallet := [("IDR", 3000000), ("USD", 0)] } }

/-- A fresh group holding `USD 100`. -/
def groupUSD100 : GroupData :=
  { freshGroup with memory :=
      { freshGroup.memory with wallet := [("IDR", 0), ("USD", 100)] } }

/-- A fresh group with monthly limit `USD 100` holding `USD 1,000`. -/
def groupMonthly100 : GroupData :=
  { freshGroup with
      config := { freshGroup.config with monthlyLimit := 100 },
      memory := { freshGroup.memory with wallet := [("IDR", 0), ("USD", 1000)] } }

/-- C3 counterexample: an expense of `IDR 2,000,000` with a balance of
`IDR 3,000,000` (so `amount ≤ Wallet[currency]`, and the amount is valid
and positive) does not succeed when issued by a non-admin under the
default big-transaction policy: the handler stops in the
pending-approval outcome and the wallet is not debited, so "the expense
operation succeeds for every valid funded expense intent" is false as
stated. -/
theorem C3_counterexample :
    (2000000 : Rat) ≤ wget groupRichIDR.memory.wallet "IDR" ∧
    (handleExpenseAction intentBigExpenseIDR groupRichIDR uBob false 1 10 5 3).1 =
      ActionResult.pendingApproval ∧
    wget (handleExpenseAction intentBigExpenseIDR groupRichIDR uBob false 1 10 5 3).2.memory.wallet "IDR" =
      wget groupRichIDR.memory.wallet "IDR" := by
  simp [handleExpenseAction, handleIncomeAction, handleCancelAction,
    approveTransaction, approveById, pickLast, intentBigExpenseIDR,
    intentBigExpenseUSD, intentBigIncome, intentIncomeEUR, intentExpenseUSD10,
    intentExpenseUSD200, blankIntent, groupRichIDR, groupRichUSD, groupUSD100,
    groupMonthly100, freshGroup, uBob, wget, wset, wensure, amem, aset, agetD,
    jsOr, jsOrOpt, warnTier, updateUserStats]
  all_goals norm_num

/-- C4: evaluation of the code at the failing input. A non-admin USD
expense of `1,500,000` (above the `1,000,000` threshold, with
`requireAdminForBigTransactions` enabled and sufficient balance) stops
in the pending-approval outcome, yet `DailySpend.amount`,
`MonthlySpend.amount` and the category total have already been increased
by the full amount; only the wallet and the transaction log are left
untouched. -/
theorem C4_hold_mutates_aggregates :
    (handleExpenseAction intentBigExpenseUSD groupRichUSD uBob false 1 10 5 3).1 =
      ActionResult.pendingApproval ∧
    (handleExpenseAction intentBigExpenseUSD groupRichUSD uBob false 1 10 5 3).2.memory.dailySpent.usd =
      1500000 ∧
    (handleExpenseAction intentBigExpenseUSD groupRichUSD uBob false 1 10 5 3).2.memory.monthlySpent.usd =
      1500000 ∧
    agetD (handleExpenseAction intentBigExpenseUSD groupRichUSD uBob false 1 10 5 3).2.memory.monthlySpent.categories
      "other" 0 = 1500000 ∧
    groupRichUSD.memory.dailySpent.usd = 0 ∧
    groupRichUSD.memory.monthlySpent.usd = 0 ∧
    (handleExpenseAction intentBigExpenseUSD groupRichUSD uBob false 1 10 5 3).2.memory.wallet =
      groupRichUSD.memory.wallet ∧
    (handleExpenseAction intentBigExpenseUSD groupRichUSD uBob false 1 10 5 3).2.memory.transactions =
      [] := by
  simp [handleExpenseAction, handleIncomeAction, handleCancelAction,
    approveTransaction, approveById, pickLast, intentBigExpenseIDR,
    intentBigExpenseUSD, intentBigIncome, intentIncomeEUR, intentExpenseUSD10,
    intentExpenseUSD200, blankIntent, groupRichIDR, groupRichUSD, groupUSD100,
    groupMonthly100, freshGroup, uBob, wget, wset, wensure, amem, aset, agetD,
    jsOr, jsOrOpt, warnTier, updateUserStats]
  all_goals norm_num

/-- C5 counterexample: on a fresh group holding `USD 100`, applying a
daily-counting expense of `USD 10` and immediately reversing it by the
same user restores the wallet and the daily aggregate, but leaves
`MonthlySpend.amount` at `10` (and the `other` category at `10`) against
an initial value of `0` — a discrepancy of `10`, so the post-reversal
state is not equal to the pre-expense state within any small epsilon. -/
theorem C5_counterexample :
    (handleCancelAction
        (handleExpenseAction intentExpenseUSD10 groupUSD100 uBob false 1 10 5 3).2
        uBob.id 5 11).2.memory.monthlySpent.usd = 10 ∧
    agetD (handleCancelAction
        (handleExpenseAction intentExpenseUSD10 groupUSD100 uBob false 1 10 5 3).2
        uBob.id 5 11).2.memory.monthlySpent.categories "other" 0 = 10 ∧
    groupUSD100.memory.monthlySpent.usd = 0 ∧
    agetD groupUSD100.memory.monthlySpent.categories "other" 0 = 0 ∧
    (handleCancelAction
        (handleExpenseAction intentExpenseUSD10 groupUSD100 uBob false 1 10 5 3).2
        uBob.id 5 11).2.memory.wallet = groupUSD100.memory.wallet ∧
    (handleCancelAction
        (handleExpenseAction intentExpenseUSD10 groupUSD100 uBob false 1 10 5 3).2
        uBob.id 5 11).2.memory.dailySpent = groupUSD100.memory.dailySpent := by
  simp [handleExpenseAction, handleIncomeAction, handleCancelAction,
    approveTransaction, approveById, pickLast, intentBigExpenseIDR,
    intentBigExpenseUSD, intentBigIncome, intentIncomeEUR, intentExpenseUSD10,
    intentExpenseUSD200, blankIntent, groupRichIDR, groupRichUSD, groupUSD100,
    groupMonthly100, freshGroup, uBob, wget, wset, wensure, amem, aset, agetD,
    jsOr, jsOrOpt, warnTier, updateUserStats]
  all_goals norm_num

/-- C6 counterexample: a valid `USD 200` expense that does not count
toward the daily limit, on a group whose monthly limit is `USD 100`,
pushes the monthly percentage to exactly 200% (an `extreme`-tier
percentage under the claimed mapping), yet the operation returns warning
level `none`: the monthly percentage never raises the overall
classification. -/
theorem C6_counterexample :
    (handleExpenseAction intentExpenseUSD200 groupMonthly100 uBob false 1 10 5 3).1 =
      ActionResult.success WLevel.none ∧
    (handleExpenseAction intentExpenseUSD200 groupMonthly100 uBob false 1 10 5 3).2.memory.monthlySpent.usd /
        jsOr groupMonthly100.config.monthlyLimit 1000 * 100 = 200 ∧
    warnTier 200 = WLevel.extreme := by
  simp [handleExpenseAction, handleIncomeAction, handleCancelAction,
    approveTransaction, approveById, pickLast, intentBigExpenseIDR,
    intentBigExpenseUSD, intentBigIncome, intentIncomeEUR, intentExpenseUSD10,
    intentExpenseUSD200, blankIntent, groupRichIDR, groupRichUSD, groupUSD100,
    groupMonthly100, freshGroup, uBob, wget, wset, wensure, amem, aset, agetD,
    jsOr, jsOrOpt, warnTier, updateUserStats]
  all_goals norm_num

/-- C8 counterexample: an income intent of `100` in the unsupported
currency `EUR` is not rejected: it is applied to the ledger, creating a
fresh `EUR` wallet entry with balance `100` and appending a transaction,
so the currency field is not validated against the supported set. -/
theorem C8_counterexample :
    (handleIncomeAction intentIncomeEUR freshGroup uBob false 1 10 5 3).1 =
      ActionResult.success WLevel.none ∧
    wget (handleIncomeAction intentIncomeEUR freshGroup uBob false 1 10 5 3).2.memory.wallet "EUR" =
      100 ∧
    (handleIncomeAction intentIncomeEUR freshGroup uBob false 1 10 5 3).2.memory.transactions ≠
      [] := by
  simp [handleExpenseAction, handleIncomeAction, handleCancelAction,
    approveTransaction, approveById, pickLast, intentBigExpenseIDR,
    intentBigExpenseUSD, intentBigIncome, intentIncomeEUR, intentExpenseUSD10,
    intentExpenseUSD200, blankIntent, groupRichIDR, groupRichUSD, groupUSD100,
    groupMonthly100, freshGroup, uBob, wget, wset, wensure, amem, aset, agetD,
    jsOr, jsOrOpt, warnTier, updateUserStats]
  all_goals norm_num

/-- C9: evaluation of the code at the failing input. A non-admin income
of `IDR 2,000,000` (above the threshold, approval policy enabled) stops
in the pending-approval outcome with the ledger completely unchanged —
in particular no transaction carrying the `requiresAdminApproval` flag
is appended — so the subsequent `/approve` finds no pending transaction
and reports so, and the wallet credit for the held income can never
happen. -/
theorem C9_held_income_unreachable_by_approval :
    handleIncomeAction intentBigIncome freshGroup uBob false 1 10 5 3 =
      (ActionResult.pendingApproval, freshGroup) ∧
    approveTransaction freshGroup Option.none 9 = (ApproveResult.noPending, freshGroup) ∧
    approveTransaction freshGroup (Option.some 1) 9 = (ApproveResult.noPending, freshGroup) ∧
    wget freshGroup.memory.wallet "IDR" = 0 := by
  simp [handleExpenseAction, handleIncomeAction, handleCancelAction,
    approveTransaction, approveById, pickLast, intentBigExpenseIDR,
    intentBigExpenseUSD, intentBigIncome, intentIncomeEUR, intentExpenseUSD10,
    intentExpenseUSD200, blankIntent, groupRichIDR, groupRichUSD, groupUSD100,
    groupMonthly100, freshGroup, uBob, wget, wset, wensure, amem, aset, agetD,
    jsOr, jsOrOpt, warnTier, updateUserStats]
  all_goals norm_num


/-! ## Lemmas about the association-list primitives -/

theorem agetD_aset {α β : Type} [DecidableEq α] (l : List (α × β)) (k q : α) (v d : β) :
    agetD (aset l k v) q d = if q = k then v else agetD l q d := by
  induction l with
  | nil =>
    by_cases h : k = q <;> simp [aset, agetD, h, eq_comm]
  | cons hd tl ih =>
    obtain ⟨a, b⟩ := hd
    by_cases h1 : a = k
    · subst h1
      by_cases h2 : q = a <;> simp [aset, agetD, h2, eq_comm]
    · by_cases h2 : a = q
      · have h3 : ¬ q = k := by rw [← h2]; exact h1
        simp [aset, agetD, h1, h2, h3]
      · simp [aset, agetD, h1, h2, ih]

theorem agetD_append_default {α β : Type} [DecidableEq α] (l : List (α × β)) (k q : α) (d : β) :
    agetD (l ++ [(k, d)]) q d = agetD l q d := by
  induction l with
  | nil => by_cases h : k = q <;> simp [agetD, h]
  | cons hd tl ih =>
    obtain ⟨a, b⟩ := hd
    by_cases h : a = q <;> simp [agetD, h, ih]

theorem aset_aset {α β : Type} [DecidableEq α] (l : List (α × β)) (k : α) (v v' : β) :
    aset (aset l k v) k v' = aset l k v' := by
  induction l with
  | nil => simp [aset]
  | cons hd tl ih =>
    obtain ⟨a, b⟩ := hd
    by_cases h : a = k <;> simp [aset, h, ih]

theorem aset_agetD_self {α β : Type} [DecidableEq α] (l : List (α × β)) (k : α) (d : β)
    (h : amem l k = true) : aset l k (agetD l k d) = l := by
  induction l with
  | nil => simp [amem] at h
  | cons hd tl ih =>
    obtain ⟨a, b⟩ := hd
    by_cases h1 : a = k
    · simp [aset, agetD, h1]
    · simp only [amem, if_neg h1] at h
      simp [aset, agetD, h1, ih h]

theorem wget_wset (w : Wallet) (c q : String) (v : Rat) :
    wget (wset w c v) q = if q = c then v else wget w q :=
  agetD_aset w c q v 0

theorem wset_wset (w : Wallet) (c : String) (v v' : Rat) :
    wset (wset w c v) c v' = wset w c v' :=
  aset_aset w c v v'

theorem wget_wensure (w : Wallet) (c q : String) :
    wget (wensure w c) q = wget w q := by
  unfold wensure
  by_cases h : amem w c = true
  · rw [if_pos h]
  · rw [if_neg h]
    exact agetD_append_default w c q 0

theorem wensure_of_amem (w : Wallet) (c : String) (h : amem w c = true) :
    wensure w c = w := by
  unfold wensure
  rw [if_pos h]

theorem wset_wget_self (w : Wallet) (c : String) (h : amem w c = true) :
    wset w c (wget w c) = w :=
  aset_agetD_self w c 0 h

/-! ## The signed sum of the transaction log -/

/-- Signed contribution of one log entry to the balance of currency `c`:
income adds, expense subtracts, a conversion subtracts on the source leg
and adds on the target leg; a canceled entry contributes nothing. -/
def txnContrib (t : Txn) (c : String) : Rat :=
  if t.canceled = true then 0 else
  match t.type with
  | TxnType.income => if t.currency = c then t.amount else 0
  | TxnType.expense => if t.currency = c then -t.amount else 0
  | TxnType.convert =>
    (if t.currency = c then -t.amount else 0) +
    (if t.targetCurrency = c then t.targetAmount else 0)

/-- Signed sum of the amounts of all non-canceled transactions in
currency `c`. -/
def signedSum (txns : List Txn) (c : String) : Rat :=
  (txns.map (fun t => txnContrib t c)).sum

theorem signedSum_nil (c : String) : signedSum [] c = 0 := rfl

theorem signedSum_append (l : List Txn) (t : Txn) (c : String) :
    signedSum (l ++ [t]) c = signedSum l c + txnContrib t c := by
  simp [signedSum]

theorem signedSum_set (l : List Txn) (i : Nat) (t t' : Txn) (c : String)
    (h : l[i]? = some t) :
    signedSum (l.set i t') c = signedSum l c - txnContrib t c + txnContrib t' c := by
  induction l generalizing i with
  | nil => simp at h
  | cons hd tl ih =>
    cases i with
    | zero =>
      simp only [List.getElem?_cons_zero, Option.some.injEq] at h
      subst h
      simp [signedSum, List.set]
      ring
    | succ n =>
      simp only [List.getElem?_cons_succ] at h
      simp [signedSum, List.set, List.map_cons, List.sum_cons] at ih ⊢
      rw [ih n h]
      ring

/-! ## Properties of the cancel target selection -/

theorem pickLast_spec (l : List Txn) (uid : Nat) :
    ∀ k i t, pickLast l uid k = Option.some (i, t) →
      k ≤ i ∧ l[i - k]? = Option.some t ∧ t.userId = uid ∧ t.canceled = false := by
  induction l with
  | nil => intro k i t h; simp [pickLast] at h
  | cons hd tl ih =>
    intro k i t h
    simp only [pickLast] at h
    by_cases hq : hd.userId = uid ∧ hd.canceled = false
    · rw [if_pos hq] at h
      cases hr : pickLast tl uid (k + 1) with
      | none =>
        rw [hr] at h
        simp only [Option.some.injEq, Prod.mk.injEq] at h
        obtain ⟨hi, ht⟩ := h
        subst hi; subst ht
        refine ⟨Nat.le_refl k, ?_, hq.1, hq.2⟩
        simp
      | some p =>
        obtain ⟨j, t2⟩ := p
        rw [hr] at h
        dsimp only at h
        by_cases htime : t2.time > hd.time
        · rw [if_pos htime] at h
          simp only [Option.some.injEq, Prod.mk.injEq] at h
          obtain ⟨hi, ht⟩ := h
          subst hi
          subst ht
          obtain ⟨hk, hget, hu, hc2⟩ := ih (k + 1) j t2 hr
          refine ⟨by omega, ?_, hu, hc2⟩
          have hik : j - k = (j - (k + 1)) + 1 := by omega
          rw [hik, List.getElem?_cons_succ]
          exact hget
        · rw [if_neg htime] at h
          simp only [Option.some.injEq, Prod.mk.injEq] at h
          obtain ⟨hi, ht⟩ := h
          subst hi
          subst ht
          refine ⟨Nat.le_refl k, ?_, hq.1, hq.2⟩
          simp
    · rw [if_neg hq] at h
      obtain ⟨hk, hget, hu, hc⟩ := ih (k + 1) i t h
      refine ⟨by omega, ?_, hu, hc⟩
      have hik : i - k = (i - (k + 1)) + 1 := by omega
      rw [hik, List.getElem?_cons_succ]
      exact hget

theorem pickLast_append (l : List Txn) (t : Txn) (uid : Nat)
    (ht : t.userId = uid) (hc : t.canceled = false)
    (hmax : ∀ t2 ∈ l, t2.time < t.time) :
    ∀ k, pickLast (l ++ [t]) uid k = Option.some (k + l.length, t) := by
  induction l with
  | nil =>
    intro k
    simp [pickLast, ht, hc]
  | cons hd tl ih =>
    intro k
    have hmax2 : ∀ t2 ∈ tl, t2.time < t.time := fun t2 h2 => hmax t2 (by simp [h2])
    have harith : k + 1 + tl.length = k + (hd :: tl).length := by
      simp only [List.length_cons]
      omega
    have hrec : pickLast (tl ++ [t]) uid (k + 1) =
        Option.some (k + (hd :: tl).length, t) := by
      rw [ih hmax2 (k + 1), harith]
    rw [List.cons_append]
    simp only [pickLast, List.append_eq, hrec]
    by_cases hq : hd.userId = uid ∧ hd.canceled = false
    · rw [if_pos hq]
      have hlt : t.time > hd.time := hmax hd (by simp)
      rw [if_pos hlt]
    · rw [if_neg hq]

theorem set_append_last (l : List Txn) (t t' : Txn) :
    (l ++ [t]).set l.length t' = l ++ [t'] := by
  induction l with
  | nil => simp
  | cons hd tl ih => simp [List.set, ih]

/-! ## Balance conservation -/

/-- The balance-conservation invariant: every currency's wallet balance
equals the signed sum of the non-canceled transactions. -/
def walletInv (g : GroupData) : Prop :=
  ∀ c, wget g.memory.wallet c = signedSum g.memory.transactions c

theorem walletInv_income (d : AiData) (g : GroupData) (u : UserRef) (adm : Bool)
    (i t dy m : Nat) (h : walletInv g) :
    walletInv (handleIncomeAction d g u adm i t dy m).2 := by
  rcases hd : d.amount with _ | a
  · simp only [handleIncomeAction, hd]
    exact h
  · simp only [handleIncomeAction, hd]
    by_cases hle : a ≤ 0
    · rw [if_pos hle]
      exact h
    · rw [if_neg hle]
      by_cases hhold :
          ((g.config.requireAdminForBigTransactions && decide (a > g.config.bigTransactionThreshold)) && !adm) = true
      · rw [if_pos hhold]
        exact h
      · rw [if_neg hhold]
        intro c
        simp only [signedSum_append, txnContrib]
        by_cases hc : d.currency.getD "IDR" = c
        · subst hc
          simp only [wget_wset, wget_wensure, if_pos rfl]
          rw [h _]
          simp
        · rw [wget_wset, if_neg (fun hcc => hc hcc.symm), wget_wensure, h c]
          simp [hc]

theorem walletInv_expense (d : AiData) (g : GroupData) (u : UserRef) (adm : Bool)
    (i t dy m : Nat) (h : walletInv g) :
    walletInv (handleExpenseAction d g u adm i t dy m).2 := by
  rcases hd : d.amount with _ | a
  · simp only [handleExpenseAction, hd]
    exact h
  · simp only [handleExpenseAction, hd]
    by_cases hle : a ≤ 0
    · rw [if_pos hle]
      exact h
    · rw [if_neg hle]
      by_cases hfunds :
          a > wget (wensure g.memory.wallet (d.currency.getD "IDR")) (d.currency.getD "IDR")
      · rw [if_pos hfunds]
        intro c
        rw [wget_wensure]
        exact h c
      · rw [if_neg hfunds]
        by_cases hhold :
            ((g.config.requireAdminForBigTransactions && decide (a > g.config.bigTransactionThreshold)) && !adm) = true
        · rw [if_pos hhold]
          intro c
          rw [wget_wensure]
          exact h c
        · rw [if_neg hhold]
          intro c
          simp only [signedSum_append, txnContrib]
          by_cases hc : d.currency.getD "IDR" = c
          · subst hc
            simp only [wget_wset, wget_wensure, if_pos rfl]
            rw [h _]
            simp
            ring
          · rw [wget_wset, if_neg (fun hcc => hc hcc.symm), wget_wensure, h c]
            simp [hc]

theorem wget_convert_apply (w : Wallet) (cur tc : String) (a ta : Rat) (c : String) :
    wget (wset (wensure (wset (wensure w cur) cur (wget (wensure w cur) cur - a)) tc) tc
        (wget (wensure (wset (wensure w cur) cur (wget (wensure w cur) cur - a)) tc) tc + ta)) c
      = wget w c + (if cur = c then -a else 0) + (if tc = c then ta else 0) := by
  simp only [wget_wset, wget_wensure]
  by_cases hc1 : c = tc
  · subst hc1
    by_cases hc2 : c = cur
    · subst hc2
      simp
      try ring
    · simp [hc2, Ne.symm hc2]
      try ring
  · by_cases hc2 : c = cur
    · subst hc2
      simp [hc1, Ne.symm hc1]
      try ring
    · simp [hc1, hc2, Ne.symm hc1, Ne.symm hc2]
      try ring

theorem wget_convert_cancel (w : Wallet) (cur tc : String) (a ta : Rat) (c : String) :
    wget (wset (wset w cur (wget w cur + a)) tc
        (wget (wset w cur (wget w cur + a)) tc - ta)) c
      = wget w c + (if cur = c then a else 0) - (if tc = c then ta else 0) := by
  simp only [wget_wset]
  by_cases hc1 : c = tc
  · subst hc1
    by_cases hc2 : c = cur
    · subst hc2
      simp
      try ring
    · simp [hc2, Ne.symm hc2]
      try ring
  · by_cases hc2 : c = cur
    · subst hc2
      simp [hc1, Ne.symm hc1]
      try ring
    · simp [hc1, hc2, Ne.symm hc1, Ne.symm hc2]
      try ring

theorem walletInv_convert (d : AiData) (g : GroupData) (u : UserRef)
    (i t dy m : Nat) (h : walletInv g) :
    walletInv (handleConvertAction d g u i t dy m).2 := by
  rcases hd : d.amount with _ | a
  · simp only [handleConvertAction, hd]
    exact h
  · simp only [handleConvertAction, hd]
    by_cases hle : a ≤ 0
    · rw [if_pos hle]
      exact h
    · rw [if_neg hle]
      by_cases hfunds :
          a > wget (wensure g.memory.wallet (d.currency.getD "USD")) (d.currency.getD "USD")
      · rw [if_pos hfunds]
        intro c
        rw [wget_wensure]
        exact h c
      · rw [if_neg hfunds]
        intro c
        rw [wget_convert_apply]
        simp only [signedSum_append, txnContrib]
        rw [h c]
        split_ifs <;> first
          | exact (by assumption : False).elim
          | ring

theorem walletInv_cancel (g : GroupData) (uid today time : Nat) (h : walletInv g) :
    walletInv (handleCancelAction g uid today time).2 := by
  cases hp : pickLast g.memory.transactions uid 0 with
  | none =>
    simp only [handleCancelAction, hp]
    exact h
  | some p =>
    obtain ⟨i, t0⟩ := p
    obtain ⟨-, hget, -, hcanc⟩ := pickLast_spec g.memory.transactions uid 0 i t0 hp
    rw [Nat.sub_zero] at hget
    simp only [handleCancelAction, hp]
    intro c
    rw [signedSum_set g.memory.transactions i t0 _ c hget]
    have hzero : txnContrib
        { t0 with canceled := true,
                  canceledAt := Option.some time,
                  canceledBy := Option.some uid } c = 0 := by
      simp [txnContrib]
    rw [hzero, add_zero]
    cases htype : t0.type with
    | income =>
      simp only [htype, txnContrib, hcanc]
      by_cases hc : t0.currency = c
      · subst hc
        simp [wget_wset, h _]
      · rw [wget_wset, if_neg (fun hcc => hc hcc.symm), h c]
        simp [hc]
    | expense =>
      simp only [htype, txnContrib, hcanc]
      by_cases hc : t0.currency = c
      · subst hc
        simp [wget_wset, h _]
      · rw [wget_wset, if_neg (fun hcc => hc hcc.symm), h c]
        simp [hc]
    | convert =>
      simp only [htype, txnContrib, hcanc]
      rw [wget_convert_cancel, h c]
      split_ifs <;> first
        | exact (by assumption : False).elim
        | ring

/-- One executor operation of the kinds the balance-conservation claim
quantifies over: income, expense, conversion, cancellation. -/
inductive Op : Type
  | income (d : AiData) (u : UserRef) (isAdmin : Bool) (txnId time day month : Nat)
  | expense (d : AiData) (u : UserRef) (isAdmin : Bool) (txnId time day month : Nat)
  | convert (d : AiData) (u : UserRef) (txnId time day month : Nat)
  | cancel (uid today time : Nat)

/-- Apply one operation to a group ledger, keeping the post-state. -/
def applyOp (g : GroupData) : Op → GroupData
  | Op.income d u adm i t dy m => (handleIncomeAction d g u adm i t dy m).2
  | Op.expense d u adm i t dy m => (handleExpenseAction d g u adm i t dy m).2
  | Op.convert d u i t dy m => (handleConvertAction d g u i t dy m).2
  | Op.cancel uid today time => (handleCancelAction g uid today time).2

/-- Apply a sequence of operations from left to right. -/
def applyOps (g : GroupData) (ops : List Op) : GroupData := ops.foldl applyOp g

theorem walletInv_applyOp (g : GroupData) (op : Op) (h : walletInv g) :
    walletInv (applyOp g op) := by
  cases op with
  | income d u adm i t dy m => exact walletInv_income d g u adm i t dy m h
  | expense d u adm i t dy m => exact walletInv_expense d g u adm i t dy m h
  | convert d u i t dy m => exact walletInv_convert d g u i t dy m h
  | cancel uid today time => exact walletInv_cancel g uid today time h

theorem walletInv_applyOps (g : GroupData) (ops : List Op) (h : walletInv g) :
    walletInv (applyOps g ops) := by
  induction ops generalizing g with
  | nil => exact h
  | cons op rest ih => exact ih (applyOp g op) (walletInv_applyOp g op h)

theorem walletInv_fresh : walletInv freshGroup := by
  intro c
  simp [freshGroup, wget, agetD, signedSum]

/-- C1: balance conservation. For every group ledger reachable from a
fresh group by any sequence of income, expense, conversion and
cancellation operations, and for each supported currency (`IDR` and
`USD`), the wallet balance equals the signed sum of the amounts of the
non-canceled transactions in the log (income positive, expense negative,
conversion negative on the source leg and positive on the target leg) —
exactly, hence within any epsilon tolerance. -/
theorem C1_balance_conservation (ops : List Op) :
    wget (applyOps freshGroup ops).memory.wallet "IDR" =
      signedSum (applyOps freshGroup ops).memory.transactions "IDR" ∧
    wget (applyOps freshGroup ops).memory.wallet "USD" =
      signedSum (applyOps freshGroup ops).memory.transactions "USD" :=
  ⟨walletInv_applyOps freshGroup ops walletInv_fresh "IDR",
   walletInv_applyOps freshGroup ops walletInv_fresh "USD"⟩

/-- C2: insufficient funds always blocks and is atomic. For every
expense or conversion intent with a valid positive amount whose amount
exceeds the wallet balance of its currency (a currency the wallet
already tracks, as `IDR` and `USD` always are), the handler returns the
insufficient-funds rejection and the entire group state — wallet,
transaction log, daily and monthly aggregates, statistics and user
stats — is returned unchanged, showing the balance check precedes any
limit accounting. -/
theorem C2_insufficient_funds_blocks (d : AiData) (g : GroupData) (u : UserRef)
    (adm : Bool) (i t dy m : Nat) (a : Rat)
    (ha : d.amount = Option.some a) (hpos : 0 < a) :
    (amem g.memory.wallet (d.currency.getD "IDR") = true →
      a > wget g.memory.wallet (d.currency.getD "IDR") →
      handleExpenseAction d g u adm i t dy m = (ActionResult.insufficientFunds, g)) ∧
    (amem g.memory.wallet (d.currency.getD "USD") = true →
      a > wget g.memory.wallet (d.currency.getD "USD") →
      handleConvertAction d g u i t dy m = (ActionResult.insufficientFunds, g)) := by
  constructor
  · intro hmem hgt
    simp only [handleExpenseAction, ha]
    rw [if_neg (not_le.mpr hpos), wensure_of_amem _ _ hmem, if_pos hgt]
  · intro hmem hgt
    simp only [handleConvertAction, ha]
    rw [if_neg (not_le.mpr hpos), wensure_of_amem _ _ hmem, if_pos hgt]

/-- C2 witness: on a fresh group (both balances 0), an expense and a
conversion of `USD 10` are rejected as insufficient funds with the state
unchanged. -/
theorem C2_witness :
    handleExpenseAction intentExpenseUSD10 freshGroup uBob false 1 10 5 3 =
      (ActionResult.insufficientFunds, freshGroup) ∧
    handleConvertAction intentExpenseUSD10 freshGroup uBob 1 10 5 3 =
      (ActionResult.insufficientFunds, freshGroup) := by
  have h := C2_insufficient_funds_blocks intentExpenseUSD10 freshGroup uBob
    false 1 10 5 3 10 rfl (by norm_num)
  exact ⟨h.1 (by decide) (by decide), h.2 (by decide) (by decide)⟩

/-- A valid, funded, daily-counting expense of `USD 1000` against a
daily limit of 20 (5000% of the limit). -/
def intentExpenseUSD1000 : AiData :=
  { blankIntent with amount := Option.some 1000,
                     currency := Option.some "USD", countsToDailyLimit := true }

/-- A fresh group holding `USD 1000`. -/
def groupUSD1000 : GroupData :=
  { freshGroup with memory :=
      { freshGroup.memory with wallet := [("IDR", 0), ("USD", 1000)] } }

/-- C3 (amended): limits never block, provided the big-transaction hold
does not apply. For every expense intent with a valid positive amount,
`amount ≤ Wallet[currency]`, and the hold disabled for it (policy off,
or amount within the threshold, or the user an admin), the expense
succeeds — wallet debited, expense transaction appended, monthly (and,
when daily-counting, daily) aggregates increased for USD — no matter how
far the resulting daily or monthly percentages exceed 100%; exceeding a
spending limit alone never causes a rejection. (The unamended claim
fails only on held big transactions, see the counterexample.) -/
theorem C3_limits_never_block_amended (d : AiData) (g : GroupData) (u : UserRef)
    (adm : Bool) (i t dy m : Nat) (a : Rat)
    (ha : d.amount = Option.some a) (hpos : 0 < a)
    (hfunds : a ≤ wget (wensure g.memory.wallet (d.currency.getD "IDR")) (d.currency.getD "IDR"))
    (hhold : ((g.config.requireAdminForBigTransactions &&
        decide (a > g.config.bigTransactionThreshold)) && !adm) = false) :
    (handleExpenseAction d g u adm i t dy m).1 =
      ActionResult.success
        (if d.currency.getD "IDR" = "USD" ∧ d.countsToDailyLimit = true then
          warnTier ((g.memory.dailySpent.usd + a) / jsOr g.config.dailyLimit 20 * 100)
        else WLevel.none) ∧
    wget (handleExpenseAction d g u adm i t dy m).2.memory.wallet (d.currency.getD "IDR") =
      wget g.memory.wallet (d.currency.getD "IDR") - a ∧
    (∃ txn : Txn,
      (handleExpenseAction d g u adm i t dy m).2.memory.transactions =
        g.memory.transactions ++ [txn] ∧
      txn.type = TxnType.expense ∧ txn.amount = a ∧
      txn.currency = d.currency.getD "IDR" ∧ txn.canceled = false) ∧
    (d.currency.getD "IDR" = "USD" →
      (handleExpenseAction d g u adm i t dy m).2.memory.monthlySpent.usd =
        g.memory.monthlySpent.usd + a) ∧
    (d.currency.getD "IDR" = "USD" ∧ d.countsToDailyLimit = true →
      (handleExpenseAction d g u adm i t dy m).2.memory.dailySpent.usd =
        g.memory.dailySpent.usd + a) := by
  simp only [handleExpenseAction, ha]
  rw [if_neg (not_le.mpr hpos), if_neg (not_lt.mpr hfunds),
    if_neg (by rw [hhold]; exact Bool.false_ne_true)]
  refine ⟨rfl, ?_, ⟨_, rfl, rfl, rfl, rfl, rfl⟩, ?_, ?_⟩
  · rw [wget_wset, if_pos rfl, wget_wensure]
  · intro husd
    rw [if_pos husd]
  · intro husd
    rw [if_pos husd, if_pos husd]

/-- C3 witness: a funded `USD 1000` daily-counting expense at 5000% of
the daily limit (and 100% of the monthly limit) is applied with warning
level `extreme`, not rejected. -/
theorem C3_witness :
    (handleExpenseAction intentExpenseUSD1000 groupUSD1000 uBob false 1 10 5 3).1 =
      ActionResult.success WLevel.extreme ∧
    wget (handleExpenseAction intentExpenseUSD1000 groupUSD1000 uBob false 1 10 5 3).2.memory.wallet
      "USD" = 0 := by
  have h := C3_limits_never_block_amended intentExpenseUSD1000 groupUSD1000 uBob
    false 1 10 5 3 1000 rfl (by norm_num) (by decide) (by decide)
  constructor
  · rw [h.1]
    norm_num [intentExpenseUSD1000, blankIntent, groupUSD1000, freshGroup, warnTier, jsOr]
  · rw [show ("USD" : String) = intentExpenseUSD1000.currency.getD "IDR" from rfl, h.2.1]
    simp [groupUSD1000, freshGroup, intentExpenseUSD1000, blankIntent, wget, agetD]

/-- C5 (amended): expense reversal restores the wallet and the daily
aggregate but not the monthly aggregate. For every ledger whose wallet
tracks the expense currency, applying a valid funded un-held expense of
amount `a` at a time later than every logged transaction and immediately
reversing it by the same user on the same group-local day yields the
original wallet and the original `DailySpend` (the daily decrement is
clamped at 0 and the prior daily total is nonnegative), while
`MonthlySpend.amount` and the expense category total remain increased by
`a` for a USD expense — the code's reversal never decrements the monthly
aggregate, so it is not a true inverse on `MonthlySpend` (see the
counterexample). -/
theorem C5_reversal_inverse_amended (d : AiData) (g : GroupData) (u : UserRef)
    (adm : Bool) (i t dy m t2 : Nat) (a : Rat)
    (ha : d.amount = Option.some a) (hpos : 0 < a)
    (hmem : amem g.memory.wallet (d.currency.getD "IDR") = true)
    (hfunds : a ≤ wget g.memory.wallet (d.currency.getD "IDR"))
    (hhold : ((g.config.requireAdminForBigTransactions &&
        decide (a > g.config.bigTransactionThreshold)) && !adm) = false)
    (hfresh : ∀ t0 ∈ g.memory.transactions, t0.time < t)
    (hdaily : 0 ≤ g.memory.dailySpent.usd) :
    (handleCancelAction (handleExpenseAction d g u adm i t dy m).2 u.id dy t2).1 =
      ActionResult.success WLevel.none ∧
    (handleCancelAction (handleExpenseAction d g u adm i t dy m).2 u.id dy t2).2.memory.wallet =
      g.memory.wallet ∧
    (handleCancelAction (handleExpenseAction d g u adm i t dy m).2 u.id dy t2).2.memory.dailySpent =
      g.memory.dailySpent ∧
    (handleCancelAction (handleExpenseAction d g u adm i t dy m).2 u.id dy t2).2.memory.monthlySpent.usd =
      g.memory.monthlySpent.usd + (if d.currency.getD "IDR" = "USD" then a else 0) ∧
    agetD (handleCancelAction (handleExpenseAction d g u adm i t dy m).2 u.id dy t2).2.memory.monthlySpent.categories
        (d.category.getD "other") 0 =
      agetD g.memory.monthlySpent.categories (d.category.getD "other") 0 +
        (if d.currency.getD "IDR" = "USD" then a else 0) := by
  simp only [handleExpenseAction, ha]
  rw [if_neg (not_le.mpr hpos), wensure_of_amem _ _ hmem, if_neg (not_lt.mpr hfunds),
    if_neg (by rw [hhold]; exact Bool.false_ne_true)]
  simp only [handleCancelAction]
  rw [pickLast_append g.memory.transactions _ u.id rfl rfl
    (fun t0 ht0 => hfresh t0 ht0) 0]
  dsimp only
  refine ⟨rfl, ?_, ?_, ?_, ?_⟩
  · rw [wget_wset, if_pos rfl, sub_add_cancel, wset_wset,
      wset_wget_self _ _ hmem]
  · by_cases hcul : d.currency.getD "IDR" = "USD" ∧ d.countsToDailyLimit = true
    · rw [if_pos hcul, if_pos ⟨hcul.1, hcul.2, rfl⟩]
      dsimp only
      rw [add_sub_cancel_right, max_eq_right hdaily]
    · rw [if_neg hcul, if_neg (fun hx => hcul ⟨hx.1, hx.2.1⟩)]
  · by_cases husd : d.currency.getD "IDR" = "USD"
    · rw [if_pos husd, if_pos husd]
    · rw [if_neg husd, if_neg husd, add_zero]
  · by_cases husd : d.currency.getD "IDR" = "USD"
    · rw [if_pos husd, if_pos husd]
      dsimp only
      rw [agetD_aset, if_pos rfl]
    · rw [if_neg husd, if_neg husd, add_zero]

/-- C5 witness: on a fresh group holding `USD 100`, a daily-counting
`USD 10` expense followed by an immediate reversal restores the wallet
and the daily aggregate exactly, while the monthly aggregate stays
increased by 10. -/
theorem C5_witness :
    (handleCancelAction (handleExpenseAction intentExpenseUSD10 groupUSD100 uBob
        false 1 10 5 3).2 uBob.id 5 11).2.memory.wallet = groupUSD100.memory.wallet ∧
    (handleCancelAction (handleExpenseAction intentExpenseUSD10 groupUSD100 uBob
        false 1 10 5 3).2 uBob.id 5 11).2.memory.dailySpent = groupUSD100.memory.dailySpent ∧
    (handleCancelAction (handleExpenseAction intentExpenseUSD10 groupUSD100 uBob
        false 1 10 5 3).2 uBob.id 5 11).2.memory.monthlySpent.usd =
      groupUSD100.memory.monthlySpent.usd + 10 := by
  have h := C5_reversal_inverse_amended intentExpenseUSD10 groupUSD100 uBob
    false 1 10 5 3 11 10 rfl (by norm_num) (by decide) (by decide) (by decide)
    (by intro t0 ht0; simp [groupUSD100, freshGroup] at ht0)
    (by decide)
  refine ⟨h.2.1, h.2.2.1, ?_⟩
  rw [h.2.2.2.1]
  simp [intentExpenseUSD10, blankIntent]

/-! ## Frame property of cancellation -/

/-- The number of non-canceled entries of the log. -/
def countNonCanceled (l : List Txn) : Nat :=
  (l.filter (fun t => !t.canceled)).length

theorem countNonCanceled_set (l : List Txn) (i : Nat) (t0 t1 : Txn)
    (h : l[i]? = Option.some t0) (hc : t0.canceled = false) (hc1 : t1.canceled = true) :
    countNonCanceled (l.set i t1) + 1 = countNonCanceled l := by
  induction l generalizing i with
  | nil => simp at h
  | cons hd tl ih =>
    cases i with
    | zero =>
      simp only [List.getElem?_cons_zero, Option.some.injEq] at h
      subst h
      simp [countNonCanceled, List.set, List.filter, hc, hc1]
    | succ n =>
      simp only [List.getElem?_cons_succ] at h
      simp only [countNonCanceled, List.set, List.filter] at ih ⊢
      cases hhd : !hd.canceled <;> simp [hhd] <;> exact ih n h

theorem countNonCanceled_pos (l : List Txn) (i : Nat) (t0 : Txn)
    (h : l[i]? = Option.some t0) (hc : t0.canceled = false) :
    0 < countNonCanceled l := by
  induction l generalizing i with
  | nil => simp at h
  | cons hd tl ih =>
    cases i with
    | zero =>
      simp only [List.getElem?_cons_zero, Option.some.injEq] at h
      subst h
      simp [countNonCanceled, List.filter, hc]
    | succ n =>
      simp only [List.getElem?_cons_succ] at h
      have := ih n h
      simp only [countNonCanceled, List.filter] at this ⊢
      cases hhd : !hd.canceled <;> simp [hhd] <;> omega

/-- C10: frame property of cancellation. Whenever the cancel handler
finds a target transaction, it modifies only the wallet, the daily
aggregate and the canceled/canceledAt/canceledBy fields of that
transaction: per-user statistics, the group statistics (including
`totalTransactions`), the monthly aggregate, the exchange rate and the
configuration are all unchanged, while the number of non-canceled
transactions drops by one — so whenever `totalTransactions` matched the
non-canceled count before the cancel, it no longer does afterwards. -/
theorem C10_cancel_frame (g : GroupData) (uid today time i : Nat) (t0 : Txn)
    (hp : pickLast g.memory.transactions uid 0 = Option.some (i, t0)) :
    (handleCancelAction g uid today time).1 = ActionResult.success WLevel.none ∧
    (handleCancelAction g uid today time).2.users = g.users ∧
    (handleCancelAction g uid today time).2.memory.statistics = g.memory.statistics ∧
    (handleCancelAction g uid today time).2.memory.monthlySpent = g.memory.monthlySpent ∧
    (handleCancelAction g uid today time).2.memory.exchangeRate = g.memory.exchangeRate ∧
    (handleCancelAction g uid today time).2.config = g.config ∧
    (handleCancelAction g uid today time).2.memory.transactions =
      g.memory.transactions.set i
        { t0 with canceled := true,
                  canceledAt := Option.some time,
                  canceledBy := Option.some uid } ∧
    countNonCanceled (handleCancelAction g uid today time).2.memory.transactions + 1 =
      countNonCanceled g.memory.transactions ∧
    (g.memory.statistics.totalTransactions = countNonCanceled g.memory.transactions →
      (handleCancelAction g uid today time).2.memory.statistics.totalTransactions ≠
        countNonCanceled (handleCancelAction g uid today time).2.memory.transactions) := by
  obtain ⟨-, hget, -, hcanc⟩ := pickLast_spec g.memory.transactions uid 0 i t0 hp
  rw [Nat.sub_zero] at hget
  simp only [handleCancelAction, hp]
  have hcount : countNonCanceled (g.memory.transactions.set i
      { t0 with canceled := true,
                canceledAt := Option.some time,
                canceledBy := Option.some uid }) + 1 =
      countNonCanceled g.memory.transactions :=
    countNonCanceled_set g.memory.transactions i t0 _ hget hcanc rfl
  refine ⟨by trivial, by trivial, by trivial, by trivial, by trivial, by trivial,
    by trivial, ?_, ?_⟩
  · exact hcount
  · intro heq
    omega

/-- A fresh group whose log holds one non-canceled income of `IDR 50`
by the concrete user, with statistics matching the log. -/
def groupOneTxn : GroupData :=
  { freshGroup with memory :=
      { freshGroup.memory with
          wallet := [("IDR", 50), ("USD", 0)],
          transactions :=
            [{ id := 1, time := 10, day := 5, month := 3, user := "Bob", userId := 7,
               type := TxnType.income, amount := 50, currency := "IDR",
               targetCurrency := "", targetAmount := 0, rate := 0,
               description := "Pemasukan", category := "income",
               countsToDailyLimit := false, canceled := false,
               canceledAt := Option.none, canceledBy := Option.none,
               approvedBy := Option.none, requiresAdminApproval := false }],
          statistics := { totalTransactions := 1, activeUsers := 0, lastActivity := 10 } } }

/-- C10 witness: canceling the single logged transaction of the
concrete group leaves users, statistics, monthly aggregate and config
unchanged, and `totalTransactions` (still 1) no longer matches the
recomputed non-canceled count (now 0). -/
theorem C10_witness :
    (handleCancelAction groupOneTxn 7 5 11).2.memory.statistics =
      groupOneTxn.memory.statistics ∧
    (handleCancelAction groupOneTxn 7 5 11).2.users = groupOneTxn.users ∧
    (handleCancelAction groupOneTxn 7 5 11).2.memory.statistics.totalTransactions ≠
      countNonCanceled (handleCancelAction groupOneTxn 7 5 11).2.memory.transactions := by
  have h := C10_cancel_frame groupOneTxn 7 5 11 0
    { id := 1, time := 10, day := 5, month := 3, user := "Bob", userId := 7,
      type := TxnType.income, amount := 50, currency := "IDR",
      targetCurrency := "", targetAmount := 0, rate := 0,
      description := "Pemasukan", category := "income",
      countsToDailyLimit := false, canceled := false,
      canceledAt := Option.none, canceledBy := Option.none,
      approvedBy := Option.none, requiresAdminApproval := false }
    (by decide)
  exact ⟨h.2.2.1, h.2.1, h.2.2.2.2.2.2.2.2 (by decide)⟩

/-- C6 (amended): warning tiers are computed from the daily percentage
only, with the claimed exact boundaries (`<80` none, `[80,100)` warning,
`[100,150)` danger, `≥150` extreme); a successful expense returns
exactly the tier of its post-update daily percentage when it is a
daily-counting USD expense, and `none` otherwise — in particular the
monthly percentage never influences the classification (the unamended
"more severe of the two wins" clause fails, see the counterexample). -/
theorem C6_warning_tiers_amended :
    (∀ p : Rat, p < 80 → warnTier p = WLevel.none) ∧
    (∀ p : Rat, 80 ≤ p → p < 100 → warnTier p = WLevel.warning) ∧
    (∀ p : Rat, 100 ≤ p → p < 150 → warnTier p = WLevel.danger) ∧
    (∀ p : Rat, 150 ≤ p → warnTier p = WLevel.extreme) ∧
    (∀ (d : AiData) (g : GroupData) (u : UserRef) (adm : Bool) (i t dy m : Nat)
        (a : Rat) (wl : WLevel) (g2 : GroupData),
      d.amount = Option.some a →
      handleExpenseAction d g u adm i t dy m = (ActionResult.success wl, g2) →
      wl = (if d.currency.getD "IDR" = "USD" ∧ d.countsToDailyLimit = true then
              warnTier ((g.memory.dailySpent.usd + a) / jsOr g.config.dailyLimit 20 * 100)
            else WLevel.none)) := by
  refine ⟨?_, ?_, ?_, ?_, ?_⟩
  · intro p hp
    unfold warnTier
    rw [if_neg (by intro hc; linarith [hc.1]), if_neg (by intro hc; linarith [hc.1]),
      if_neg (by intro hc; linarith)]
  · intro p hp1 hp2
    unfold warnTier
    rw [if_pos ⟨hp1, hp2⟩]
  · intro p hp1 hp2
    unfold warnTier
    rw [if_neg (by intro hc; linarith [hc.2]), if_pos ⟨hp1, hp2⟩]
  · intro p hp
    unfold warnTier
    rw [if_neg (by intro hc; linarith [hc.2]), if_neg (by intro hc; linarith [hc.2]),
      if_pos hp]
  · intro d g u adm i t dy m a wl g2 ha hexp
    simp only [handleExpenseAction, ha] at hexp
    by_cases hle : a ≤ 0
    · rw [if_pos hle] at hexp
      simp at hexp
    · rw [if_neg hle] at hexp
      by_cases hfunds :
          a > wget (wensure g.memory.wallet (d.currency.getD "IDR")) (d.currency.getD "IDR")
      · rw [if_pos hfunds] at hexp
        simp at hexp
      · rw [if_neg hfunds] at hexp
        by_cases hhold :
            ((g.config.requireAdminForBigTransactions &&
              decide (a > g.config.bigTransactionThreshold)) && !adm) = true
        · rw [if_pos hhold] at hexp
          simp at hexp
        · rw [if_neg hhold] at hexp
          simp only [Prod.mk.injEq, ActionResult.success.injEq] at hexp
          exact hexp.1.symm

/-- C6 witness: the exact boundary values of the spec — 79.9 is `none`,
80 and 99.9 are `warning`, 100 and 149.9 are `danger`, 150 is
`extreme` — and the executor linkage at a concrete 50% daily expense. -/
theorem C6_witness :
    warnTier (799 / 10) = WLevel.none ∧
    warnTier 80 = WLevel.warning ∧
    warnTier (999 / 10) = WLevel.warning ∧
    warnTier 100 = WLevel.danger ∧
    warnTier (1499 / 10) = WLevel.danger ∧
    warnTier 150 = WLevel.extreme ∧
    WLevel.none =
      (if intentExpenseUSD10.currency.getD "IDR" = "USD" ∧
          intentExpenseUSD10.countsToDailyLimit = true then
        warnTier ((groupUSD100.memory.dailySpent.usd + 10) /
          jsOr groupUSD100.config.dailyLimit 20 * 100)
      else WLevel.none) := by
  have h := C6_warning_tiers_amended
  have hfst : (handleExpenseAction intentExpenseUSD10 groupUSD100 uBob false 1 10 5 3).1 =
      ActionResult.success WLevel.none := by
    simp [handleExpenseAction, intentExpenseUSD10, blankIntent, groupUSD100, freshGroup,
      uBob, wget, wset, wensure, amem, aset, agetD, jsOr, warnTier]
    all_goals norm_num
  have hpair : handleExpenseAction intentExpenseUSD10 groupUSD100 uBob false 1 10 5 3 =
      (ActionResult.success WLevel.none,
        (handleExpenseAction intentExpenseUSD10 groupUSD100 uBob false 1 10 5 3).2) := by
    rw [← hfst]
  exact ⟨h.1 _ (by norm_num), h.2.1 _ (by norm_num) (by norm_num),
    h.2.1 _ (by norm_num) (by norm_num), h.2.2.1 _ (by norm_num) (by norm_num),
    h.2.2.1 _ (by norm_num) (by norm_num), h.2.2.2.1 _ (by norm_num),
    h.2.2.2.2 intentExpenseUSD10 groupUSD100 uBob false 1 10 5 3 10 WLevel.none _ rfl hpair⟩

/-- C8 (amended): only the amount is validated. For every intent whose
amount is missing/non-numeric (`none`) or non-positive, each of the
income, expense and convert handlers rejects it as an invalid amount
with the group state returned unchanged; the currency field, however, is
not validated against the supported set — an intent in an unsupported
currency is processed (see the counterexample, where an `EUR` income is
applied and creates a fresh wallet entry). -/
theorem C8_amount_validation_amended (d : AiData) (g : GroupData) (u : UserRef)
    (adm : Bool) (i t dy m : Nat) :
    (d.amount = Option.none →
      handleIncomeAction d g u adm i t dy m = (ActionResult.invalidAmount, g) ∧
      handleExpenseAction d g u adm i t dy m = (ActionResult.invalidAmount, g) ∧
      handleConvertAction d g u i t dy m = (ActionResult.invalidAmount, g)) ∧
    (∀ a : Rat, d.amount = Option.some a → a ≤ 0 →
      handleIncomeAction d g u adm i t dy m = (ActionResult.invalidAmount, g) ∧
      handleExpenseAction d g u adm i t dy m = (ActionResult.invalidAmount, g) ∧
      handleConvertAction d g u i t dy m = (ActionResult.invalidAmount, g)) := by
  constructor
  · intro hnone
    refine ⟨?_, ?_, ?_⟩ <;> simp only [handleIncomeAction, handleExpenseAction,
      handleConvertAction, hnone]
  · intro a ha hle
    refine ⟨?_, ?_, ?_⟩ <;> simp only [handleIncomeAction, handleExpenseAction,
      handleConvertAction, ha] <;> rw [if_pos hle]

/-- C8 witness: a missing amount and a negative amount (`-5`) are both
rejected by all three handlers on a fresh group, which is returned
unchanged. -/
theorem C8_witness :
    handleIncomeAction blankIntent freshGroup uBob false 1 10 5 3 =
      (ActionResult.invalidAmount, freshGroup) ∧
    handleExpenseAction { blankIntent with amount := Option.some (-5) } freshGroup uBob
      false 1 10 5 3 = (ActionResult.invalidAmount, freshGroup) := by
  have h1 := C8_amount_validation_amended blankIntent freshGroup uBob false 1 10 5 3
  have h2 := C8_amount_validation_amended { blankIntent with amount := Option.some (-5) }
    freshGroup uBob false 1 10 5 3
  exact ⟨(h1.1 rfl).1, (h2.2 (-5) rfl (by norm_num)).2.1⟩

/-! ## Reconciliation (modelled from the spec) -/

/-- Modelled from the spec: tolerance for reconciliation discrepancies —
`0.01` for USD aggregates, `1` unit for other (local) currencies. The
reconcile routine itself is absent from `src/bot.js`; §4.1 of the spec
is the source for this section. -/
def reconTol (c : String) : Rat := if c = "USD" then 1 / 100 else 1

/-- Modelled from the spec: recomputed `DailySpend.amount` — the sum of
non-canceled daily-counting USD expenses dated the current group-local
day. -/
def recomputedDailyUSD (txns : List Txn) (today : Nat) : Rat :=
  (txns.map (fun t =>
    if t.canceled = false ∧ t.type = TxnType.expense ∧ t.currency = "USD" ∧
        t.countsToDailyLimit = true ∧ t.day = today then t.amount else 0)).sum

/-- Modelled from the spec: recomputed `MonthlySpend.amount` — the sum
of non-canceled USD expenses dated the current group-local month. -/
def recomputedMonthlyUSD (txns : List Txn) (month : Nat) : Rat :=
  (txns.map (fun t =>
    if t.canceled = false ∧ t.type = TxnType.expense ∧ t.currency = "USD" ∧
        t.month = month then t.amount else 0)).sum

/-- Modelled from the spec: recomputed `MonthlySpend.categories` — the
per-category totals of non-canceled USD expenses of the current month,
folded over the log. -/
def recomputedCategories (txns : List Txn) (month : Nat) : List (String × Rat) :=
  txns.foldl (fun acc t =>
    if t.canceled = false ∧ t.type = TxnType.expense ∧ t.currency = "USD" ∧
        t.month = month then
      aset acc t.category (agetD acc t.category 0 + t.amount)
    else acc) []

/-- Modelled from the spec: keep a stored aggregate when it is within
tolerance of the recomputed value, otherwise overwrite it with the
recomputed one. -/
def corr (tol stored recomputed : Rat) : Rat :=
  if tol < |stored - recomputed| then recomputed else stored

/-- Modelled from the spec: `reconcile()` — recompute Wallet,
`DailySpend.amount`, `MonthlySpend.amount` and `MonthlySpend.categories`
from scratch by folding over all non-canceled transactions, overwrite
each stored aggregate whose discrepancy exceeds the tolerance, and
report whether any drift was detected. -/
def reconcile (g : GroupData) (today month : Nat) : Bool × GroupData :=
  let txns := g.memory.transactions
  let walletDrift := g.memory.wallet.any
    (fun kv => decide (reconTol kv.1 < |kv.2 - signedSum txns kv.1|))
  let newWallet : Wallet := g.memory.wallet.map
    (fun kv => (kv.1, corr (reconTol kv.1) kv.2 (signedSum txns kv.1)))
  let rd := recomputedDailyUSD txns today
  let dailyDrift := decide (reconTol "USD" < |g.memory.dailySpent.usd - rd|)
  let newDaily := { g.memory.dailySpent with
      usd := corr (reconTol "USD") g.memory.dailySpent.usd rd }
  let rm := recomputedMonthlyUSD txns month
  let monthlyDrift := decide (reconTol "USD" < |g.memory.monthlySpent.usd - rm|)
  let rc := recomputedCategories txns month
  let catDrift := (g.memory.monthlySpent.categories ++ rc).any
    (fun kv => decide (reconTol "USD" <
      |agetD g.memory.monthlySpent.categories kv.1 0 - agetD rc kv.1 0|))
  let newMonthly := { g.memory.monthlySpent with
      usd := corr (reconTol "USD") g.memory.monthlySpent.usd rm,
      categories := if catDrift = true then rc else g.memory.monthlySpent.categories }
  (walletDrift || dailyDrift || monthlyDrift || catDrift,
   { g with memory :=
      { g.memory with wallet := newWallet, dailySpent := newDaily,
                      monthlySpent := newMonthly } })

theorem reconTol_nonneg (c : String) : 0 ≤ reconTol c := by
  unfold reconTol
  split_ifs <;> norm_num

theorem corr_close (tol x r : Rat) (htol : 0 ≤ tol) : ¬ tol < |corr tol x r - r| := by
  unfold corr
  by_cases h : tol < |x - r|
  · rw [if_pos h, sub_self, abs_zero]
    exact not_lt.mpr htol
  · rw [if_neg h]
    exact h

theorem corr_corr (tol x r : Rat) (htol : 0 ≤ tol) :
    corr tol (corr tol x r) r = corr tol x r := by
  have h := corr_close tol x r htol
  unfold corr at h ⊢
  by_cases hx : tol < |x - r|
  · rw [if_pos hx, if_neg (by rw [sub_self, abs_zero]; exact not_lt.mpr htol)]
  · rw [if_neg hx, if_neg hx]

theorem reconWallet_map_idem (txns : List Txn) (w : Wallet) :
    (w.map (fun kv => (kv.1, corr (reconTol kv.1) kv.2 (signedSum txns kv.1)))).map
      (fun kv => (kv.1, corr (reconTol kv.1) kv.2 (signedSum txns kv.1))) =
    w.map (fun kv => (kv.1, corr (reconTol kv.1) kv.2 (signedSum txns kv.1))) := by
  induction w with
  | nil => rfl
  | cons kv rest ih =>
    obtain ⟨c, v⟩ := kv
    simp only [List.map_cons, ih]
    rw [corr_corr _ _ _ (reconTol_nonneg c)]

theorem reconWallet_drift_false (txns : List Txn) (w : Wallet) :
    ((w.map (fun kv => (kv.1, corr (reconTol kv.1) kv.2 (signedSum txns kv.1)))).any
      (fun kv => decide (reconTol kv.1 < |kv.2 - signedSum txns kv.1|))) = false := by
  induction w with
  | nil => rfl
  | cons kv rest ih =>
    obtain ⟨c, v⟩ := kv
    simp only [List.map_cons, List.any_cons, ih, Bool.or_false]
    exact decide_eq_false (corr_close _ _ _ (reconTol_nonneg c))

theorem catDrift_self (rc l : List (String × Rat)) :
    (l.any (fun kv => decide (reconTol "USD" <
      |agetD rc kv.1 0 - agetD rc kv.1 0|))) = false := by
  induction l with
  | nil => rfl
  | cons kv rest ih =>
    simp only [List.any_cons, ih, Bool.or_false]
    refine decide_eq_false ?_
    rw [sub_self, abs_zero]
    exact not_lt.mpr (reconTol_nonneg "USD")

/-- C7: reconciliation recompute and idempotence (reason: the reconcile
routine is modelled from the spec — it is absent from `src/bot.js`).
`reconcile` recomputes the aggregates from the non-canceled transaction
log and overwrites a stored aggregate exactly when its discrepancy
exceeds the tolerance; running it twice in a row yields identical
aggregates both times and the second run reports zero drift. -/
theorem drift_decide_false (x r : Rat) :
    decide (reconTol "USD" < |corr (reconTol "USD") x r - r|) = false :=
  decide_eq_false (corr_close _ _ _ (reconTol_nonneg "USD"))

theorem corr_corr_usd (x r : Rat) :
    corr (reconTol "USD") (corr (reconTol "USD") x r) r = corr (reconTol "USD") x r :=
  corr_corr _ _ _ (reconTol_nonneg "USD")

theorem C7_reconcile_idempotent (g : GroupData) (today month : Nat) :
    reconcile (reconcile g today month).2 today month =
      (false, (reconcile g today month).2) := by
  simp only [reconcile, Prod.mk.injEq]
  by_cases hcat : ((g.memory.monthlySpent.categories ++
      recomputedCategories g.memory.transactions month).any
      (fun kv => decide (reconTol "USD" <
        |agetD g.memory.monthlySpent.categories kv.1 0 -
          agetD (recomputedCategories g.memory.transactions month) kv.1 0|))) = true
  · simp [hcat, reconWallet_drift_false, reconWallet_map_idem, catDrift_self,
      drift_decide_false, corr_corr_usd]
    refine ⟨⟨?_, ?_⟩, ?_⟩
    · intro a b hab
      exact not_lt.mp (corr_close _ _ _ (reconTol_nonneg a))
    · intro a b hab
      exact reconTol_nonneg "USD"
    · intro a b hab
      exact corr_corr _ _ _ (reconTol_nonneg a)
  · have hcat2 : ((g.memory.monthlySpent.categories ++
        recomputedCategories g.memory.transactions month).any
        (fun kv => decide (reconTol "USD" <
          |agetD g.memory.monthlySpent.categories kv.1 0 -
            agetD (recomputedCategories g.memory.transactions month) kv.1 0|))) = false :=
      Bool.eq_false_iff.mpr hcat
    simp [hcat2, reconWallet_drift_false, reconWallet_map_idem, catDrift_self,
      drift_decide_false, corr_corr_usd]
    refine ⟨?_, ?_⟩
    · intro a b hab
      exact not_lt.mp (corr_close _ _ _ (reconTol_nonneg a))
    · intro a b hab
      exact corr_corr _ _ _ (reconTol_nonneg a)

end FinanceBot
